import Mathlib

/-!
Shallow embedding of the BLE protocol/session core of the VeraShield app,
`src/src/lib/bluetooth.ts` (the recent revision of the file, the one the
line references in this development point into).

Modelling conventions:
* A byte sequence on the wire is a `List Nat`; the JavaScript bit
  operations `x & 0xff` and `x & 0x03` on the non-negative integers the
  code feeds them are written `x % 256` and `x % 4`.
* A JavaScript number that can be `NaN` (the results of the `Date`
  getters) is modelled as `Option Int`, with `none` standing for `NaN`;
  all numbers the app passes through `clamp` are integers, on which
  `Math.floor` is the identity.
* A fallible operation returns `Except`: `Except.ok bytes` from an encode
  step means the single characteristic write of exactly those bytes is
  performed, `Except.error` means the operation throws before any write.
* The behaviour of the radio layer during retries is an oracle
  `Nat → Except BleErr _` giving the outcome of each underlying attempt,
  numbered from 1.
-/

namespace VeraShield

/-- Errors thrown by the service layer itself (the `throw new Error(...)`
sites of `bluetooth.ts`), in structured form. -/
inductive BtError where
  /-- `"time7 must be array of 7 bytes"` (line 933). -/
  | badTime7 : BtError
  /-- `` `entry[${i}].time7 must be 7 bytes` `` (line 950). -/
  | badEntryTime7 (i : Nat) : BtError
  /-- `"Schedule too large for current MTU (mtu). Max entries: m, attempted: a."`
  (lines 968-972), with the three interpolated numbers. -/
  | payloadTooLarge (mtu maxEntries attempted : Nat) : BtError
deriving Repr, DecidableEq

/-- Embeds `clamp` (lines 594-597): `NaN` clamps to the lower bound,
otherwise the value is floored and clamped to `[lo, hi]`. -/
def clamp (n : Option Int) (lo hi : Int) : Int :=
  match n with
  | none => lo
  | some v => max lo (min hi v)

/-- Embeds the `ScheduleEntry` interface (lines 536-539). -/
structure ScheduleEntry where
  time7 : List Nat
  intensity2b : Nat
deriving Repr, DecidableEq

/-- Embeds the `ParsedSchedule` interface (lines 540-543). -/
structure ParsedSchedule where
  count : Nat
  entries : List ScheduleEntry
deriving Repr, DecidableEq

/-- Embeds the `StatsEntry` interface (lines 545-548). -/
structure StatsEntry where
  time7 : List Nat
  intensity2b : Nat
deriving Repr, DecidableEq

/-- Embeds the `ParsedStats` interface (lines 549-553). -/
structure ParsedStats where
  total : Nat
  window : Nat
  entries : List StatsEntry
deriving Repr, DecidableEq

/-- Embeds `parseSchedulePayload` (lines 880-896): header byte is the
advertised count, only `min(advertised, floor((length-1)/8))` entries are
decoded, each from the 8-byte record at offset `1 + i*8`
(`raw.slice(base, base+7)` and `raw[base+7] & 0x03`). -/
def parseSchedulePayload (raw : List Nat) : ParsedSchedule :=
  if raw.length < 1 then { count := 0, entries := [] }
  else
    let advertisedCount := raw.headD 0
    let arrived := max 0 ((raw.length - 1) / 8)
    let n := min advertisedCount arrived
    { count := n
      entries := (List.range n).map (fun i =>
        let base := 1 + i * 8
        { time7 := (raw.drop base).take 7
          intensity2b := raw.getD (base + 7) 0 % 4 }) }

/-- Embeds `parseStatsPayload` (lines 898-915): two header bytes
`[total, wantHdr]`, only `min(wantHdr, floor((length-2)/8))` entries are
decoded, each from the 8-byte record at offset `2 + i*8`. -/
def parseStatsPayload (raw : List Nat) : ParsedStats :=
  if raw.length < 2 then { total := 0, window := 0, entries := [] }
  else
    let total := raw.headD 0
    let wantHdr := raw.getD 1 0
    let arrived := max 0 ((raw.length - 2) / 8)
    let n := min wantHdr arrived
    { total := total
      window := n
      entries := (List.range n).map (fun i =>
        let base := 2 + i * 8
        { time7 := (raw.drop base).take 7
          intensity2b := raw.getD (base + 7) 0 % 4 }) }

/-- The 8 bytes `writeSchedule` pushes for one entry (lines 952-961):
the 7 time bytes masked `& 0xff` followed by the intensity masked `& 0x03`. -/
def encodeEntry (e : ScheduleEntry) : List Nat :=
  [e.time7.getD 0 0 % 256, e.time7.getD 1 0 % 256, e.time7.getD 2 0 % 256,
   e.time7.getD 3 0 % 256, e.time7.getD 4 0 % 256, e.time7.getD 5 0 % 256,
   e.time7.getD 6 0 % 256, e.intensity2b % 4]

/-- The concatenation of the encoded records of a list of entries. -/
def flatEnc : List ScheduleEntry → List Nat
  | [] => []
  | e :: rest => encodeEntry e ++ flatEnc rest

/-- The entry-encoding loop of `writeSchedule` (lines 947-962), started at
index `i`: the first entry whose `time7` is not exactly 7 bytes aborts the
whole call with `badEntryTime7` at its index, otherwise the records are
concatenated in order. -/
def encodeEntriesFrom : Nat → List ScheduleEntry → Except BtError (List Nat)
  | _, [] => .ok []
  | i, e :: rest =>
    if e.time7.length = 7 then
      match encodeEntriesFrom (i + 1) rest with
      | .ok tail => .ok (encodeEntry e ++ tail)
      | .error err => .error err
    else .error (.badEntryTime7 i)

/-- Embeds line 789: `this.currentPayloadLimit = Math.max(20, (this.currentMtu ?? 23) - 3)`. -/
def writePayloadLimit (currentMtu : Option Nat) : Nat :=
  max 20 (currentMtu.getD 23 - 3)

/-- The single-read payload budget the statistics path uses (lines
988-991): `MTU - 1` bytes per read characteristic value, with the
default MTU of 23 when none was negotiated. -/
def readPayloadLimit (currentMtu : Option Nat) : Nat :=
  currentMtu.getD 23 - 1

/-- Modelled from the spec: `writePayloadLimit = max(20, m - 3)`. -/
def specWritePayloadLimit (m : Nat) : Nat := max 20 (m - 3)

/-- Modelled from the spec: `readPayloadLimit = max(1, m - 1)`. -/
def specReadPayloadLimit (m : Nat) : Nat := max 1 (m - 1)

/-- Embeds `writeSchedule` (lines 942-976) up to the byte level:
`count = min(255, entries.length)` entries are encoded behind the count
header byte; if the assembled length exceeds
`max(20, currentPayloadLimit ?? ((currentMtu ?? 23) - 3))` the call throws
`payloadTooLarge` with the maximal representable entry count and the
attempted count, and nothing is written; otherwise exactly the returned
bytes are written in one write. -/
def writeSchedule (entries : List ScheduleEntry) (currentMtu currentPayloadLimit : Option Nat) :
    Except BtError (List Nat) :=
  let count := min 255 entries.length
  match encodeEntriesFrom 0 (entries.take count) with
  | .error e => .error e
  | .ok body =>
    let bytes := count :: body
    let payloadMax := max 20 (currentPayloadLimit.getD (currentMtu.getD 23 - 3))
    if bytes.length > payloadMax then
      .error (.payloadTooLarge (currentMtu.getD 23) (max 0 ((payloadMax - 1) / 8)) count)
    else .ok bytes

/-- An entry as the decoder hands it back after a round trip: time bytes
reduced mod 256, intensity masked to its low 2 bits. -/
def maskEntry (e : ScheduleEntry) : ScheduleEntry :=
  { time7 := e.time7.map (· % 256), intensity2b := e.intensity2b % 4 }

/-- The calendar-field view of a JavaScript `Date` as `syncTimeFromDate`
reads it: one `Option Int` per getter, `none` standing for `NaN` (the
getters of an invalid `Date`). -/
structure JSDate where
  fullYear : Option Int
  month : Option Int
  date : Option Int
  hours : Option Int
  minutes : Option Int
  seconds : Option Int
  day : Option Int
deriving Repr, DecidableEq

/-- Embeds the field extraction of `syncTimeFromDate` (lines 917-930):
each field clamped to its range (`NaN` propagates through `y - 1900` and
clamps to the floor), assembled in the firmware order
`[sec, min, hour, mday, wday, mon(0..11), year_since_1900]`. -/
def syncTimeFromDate (d : JSDate) : List Int :=
  let year7 := clamp (d.fullYear.map (fun y => y - 1900)) 0 255
  let month7 := clamp d.month 0 11
  let mday := clamp d.date 1 31
  let hour := clamp d.hours 0 23
  let minu := clamp d.minutes 0 59
  let sec := clamp d.seconds 0 59
  let wday := clamp d.day 0 6
  [sec, minu, hour, mday, wday, month7, year7]

/-- Embeds `syncTimeRaw` (lines 932-935): rejects a vector that is not
exactly 7 numbers, otherwise writes each number clamped to `[0, 255]`. -/
def syncTimeRaw (time7 : List Int) : Except BtError (List Int) :=
  if time7.length = 7 then .ok (time7.map (fun n => clamp (some n) 0 255))
  else .error .badTime7

/-- The bytes `syncTimeFromDate` hands to the time-sync characteristic:
the field vector passed through `syncTimeRaw`. -/
def syncTimeFromDateWrite (d : JSDate) : Except BtError (List Int) :=
  syncTimeRaw (syncTimeFromDate d)

/-- Embeds the control-pair computation of `readStatistics` (lines
985-998): `startB = clamp(start, 0, 255)`;
`maxEntriesOneRead = max(1, floor(((mtu - 1) - 2) / 8))`; a requested
window of 0 is replaced by `maxEntriesOneRead`, any other request is
clamped to `[1, 63]` and then capped at `maxEntriesOneRead`; the pair
`[startB, winB]` is written to the statistics characteristic. -/
def readStatisticsControl (currentMtu : Option Nat) (start window : Int) : List Int :=
  let startB := clamp (some start) 0 255
  let mtu := currentMtu.getD 23
  let maxEntriesOneRead : Nat := max 1 ((mtu - 1 - 2) / 8)
  let winB : Int :=
    if window = 0 then (maxEntriesOneRead : Int)
    else min (clamp (some window) 1 63) (maxEntriesOneRead : Int)
  [startB, winB]

/-- An error surfaced by the radio layer, carried by its message string
(the only part the service layer inspects). -/
structure BleErr where
  message : String
deriving Repr, DecidableEq

/-- Case-insensitive substring test, as JavaScript
`s.toLowerCase().includes(pat)` for an already-lowercase `pat`. -/
def lowerContains (s pat : String) : Bool :=
  decide (pat.data <:+: s.data.map Char.toLower)

/-- Embeds `looksDisconnected` inside `readCharacteristic` (lines
829-832): the message, lowercased, contains `"disconnected"`,
`"not connected"` or `"gatt 133"`. -/
def looksDisconnected (msg : String) : Bool :=
  lowerContains msg "disconnected" || lowerContains msg "not connected" ||
    lowerContains msg "gatt 133"

/-- The disconnect classification of `writeCharacteristic` (lines
870-871): only `"disconnected"` and `"not connected"`, without the
`"gatt 133"` case the read path also checks. -/
def writeLooksDisconnected (msg : String) : Bool :=
  lowerContains msg "disconnected" || lowerContains msg "not connected"

/-- Observable outcome of one `readCharacteristic` call: the value or
error it settles with, the attempt numbers actually issued to the radio,
the backoff sleeps performed, and whether the connection state was
cleared (with subscribers notified). -/
structure ReadOutcome where
  result : Except BleErr (List Nat)
  attempts : List Nat
  sleeps : List Nat
  cleared : Bool
deriving Repr

/-- The retry loop of `readCharacteristic` (lines 834-860) over the
remaining attempt numbers, threading the last error: success returns the
value; a disconnect-classified error fails immediately and clears the
connection; a transient error sleeps `40 * attempt` ms and retries; an
exhausted loop rethrows the last error (clearing the connection only if
its message contains `"disconnected"`, the post-loop check of line 856). -/
def readGo (oracle : Nat → Except BleErr (List Nat)) :
    List Nat → Option BleErr → ReadOutcome
  | [], lastErr =>
    { result := .error (lastErr.getD { message := "Read failed" })
      attempts := []
      sleeps := []
      cleared :=
        match lastErr with
        | some e => lowerContains e.message "disconnected"
        | none => false }
  | attempt :: rest, _ =>
    match oracle attempt with
    | .ok v => { result := .ok v, attempts := [attempt], sleeps := [], cleared := false }
    | .error e =>
      if looksDisconnected e.message then
        { result := .error e, attempts := [attempt], sleeps := [], cleared := true }
      else
        let r := readGo oracle rest (some e)
        { result := r.result
          attempts := attempt :: r.attempts
          sleeps := 40 * attempt :: r.sleeps
          cleared := r.cleared }

/-- Embeds `readCharacteristic` (lines 825-861) against an oracle giving
each underlying `BleClient.read` outcome: `maxAttempts = 4`, attempts
numbered 1 to 4. -/
def readCharacteristic (oracle : Nat → Except BleErr (List Nat)) : ReadOutcome :=
  readGo oracle [1, 2, 3, 4] none

/-- Observable outcome of one `writeCharacteristic` call. -/
structure WriteOutcome where
  result : Except BleErr Unit
  attempts : List Nat
  cleared : Bool
deriving Repr

/-- Embeds `writeCharacteristic` (lines 864-877): a single
`BleClient.write` attempt, no retry loop; on failure the connection is
cleared only when the message matches the write-side disconnect
classification, and the error always propagates. -/
def writeCharacteristic (oracle : Nat → Except BleErr Unit) : WriteOutcome :=
  match oracle 1 with
  | .ok _ => { result := .ok (), attempts := [1], cleared := false }
  | .error e =>
    { result := .error e, attempts := [1], cleared := writeLooksDisconnected e.message }

/-- Embeds `notifyConnectionChange` (lines 660-667): every registered
listener in the snapshot is called with the current connected flag, each
call wrapped in its own try/catch so a throwing listener is swallowed;
the per-listener results are returned for observation. -/
def notifyConnectionChange (listeners : List (Bool → Except BleErr Unit)) (v : Bool) :
    List (Except BleErr Unit) :=
  listeners.map (fun cb => cb v)

/-- Reference semantics of the same traversal without the per-call
try/catch: the first thrown error aborts the remaining listeners, and the
notification itself fails. Used to state what the catch buys. -/
def notifyUncaught : List (Bool → Except BleErr Unit) → Bool → Except BleErr Nat
  | [], _ => .ok 0
  | cb :: rest, v =>
    match cb v with
    | .ok _ => (notifyUncaught rest v).map (· + 1)
    | .error e => .error e

/-- The connection flag and subscriber list of the service singleton. -/
structure Session where
  connected : Bool
  listeners : List (Bool → Except BleErr Unit)

/-- A connection-state transition followed by the broadcast the
implementation performs at every such transition: the new flag is stored
and `notifyConnectionChange` runs against it. -/
def setConnectedAndNotify (s : Session) (c : Bool) : Session × List (Except BleErr Unit) :=
  let s' : Session := { s with connected := c }
  (s', notifyConnectionChange s'.listeners s'.connected)

/-- A listener that always throws. -/
def throwingListener : Bool → Except BleErr Unit :=
  fun _ => .error { message := "listener failed" }

/-- A listener that always returns normally. -/
def okListener : Bool → Except BleErr Unit := fun _ => .ok ()

/-- Oracle for the write counterexample: the first underlying write fails
with a transient (not disconnect-classified) error, any further attempt
would succeed. -/
def busyErr : BleErr := { message := "GATT operation busy" }

/-- See `busyErr`. -/
def cexWriteOracle : Nat → Except BleErr Unit :=
  fun k => if k = 1 then .error busyErr else .ok ()

/-- A read oracle failing transiently on attempts 1-3 and succeeding on
attempt 4 with the payload `[7]`. -/
def retryReadOracle : Nat → Except BleErr (List Nat) :=
  fun k => if k = 4 then .ok [7] else .error busyErr

/-- A disconnect-classified radio error. -/
def droppedErr : BleErr := { message := "Device disconnected" }

/-- A read oracle whose first attempt fails with a disconnect-classified
error. -/
def dropReadOracle : Nat → Except BleErr (List Nat) :=
  fun _ => .error droppedErr

/-- A read oracle failing transiently on attempt 1 and with a
disconnect-classified error from attempt 2 on. -/
def dropAfterBusyOracle : Nat → Except BleErr (List Nat) :=
  fun k => if k = 1 then .error busyErr else .error droppedErr

/-- The `device` object of a scan result, with the identifier and the two
optional name fields `getName` may fall back to. -/
structure AdvDevice where
  deviceId : String
  name : Option String
  localName : Option String
deriving Repr, DecidableEq

/-- One advertisement as the scan callback of `scanForDevices` receives
it (lines 681-701): possibly without a `device`, with optional top-level
names and an optional signal strength. -/
structure Adv where
  device : Option AdvDevice
  localName : Option String
  name : Option String
  rssi : Option Int
deriving Repr, DecidableEq

/-- Embeds `getName` (lines 676-678):
`res.localName ?? res.name ?? res.device.name ?? res.device.localName`. -/
def getName (res : Adv) : Option String :=
  res.localName <|> res.name <|> res.device.bind AdvDevice.name <|>
    res.device.bind AdvDevice.localName

/-- The product token `WANT = "MACHHAR"` (line 672). -/
def WANT : String := "MACHHAR"

/-- Embeds `rawName.toUpperCase().includes(WANT)` (line 689). -/
def nameMatches (s : String) : Bool :=
  decide (WANT.data <:+: s.data.map Char.toUpper)

/-- One entry of the scan result map (lines 692-696). -/
structure ScanEntry where
  id : String
  name : String
  rssi : Option Int
deriving Repr, DecidableEq

/-- The device id under which a qualifying advertisement is recorded:
present exactly when the advertisement has a `device`, a readable name,
and that name contains the product token. -/
def qualId (a : Adv) : Option String :=
  match a.device, getName a with
  | some d, some n => if nameMatches n then some d.deviceId else none
  | _, _ => none

/-- `results.get(id)` on the insertion-ordered map modelled as an
association list. -/
def mapGet (m : List (String × ScanEntry)) (k : String) : Option ScanEntry :=
  (m.find? (fun p => p.1 == k)).map Prod.snd

/-- `results.set(id, entry)` on the insertion-ordered map: replace in
place when the key exists, append otherwise. -/
def mapSet (m : List (String × ScanEntry)) (k : String) (v : ScanEntry) :
    List (String × ScanEntry) :=
  if m.any (fun p => p.1 == k) then
    m.map (fun p => if p.1 == k then (k, v) else p)
  else m ++ [(k, v)]

/-- Embeds the scan callback body (lines 682-700) as a step of a fold
over the advertisements observed in the window: advertisements without a
device or a readable name, or whose name misses the product token, are
dropped; otherwise the map entry for the device id is created, or
replaced when the new strength is a number exceeding the stored strength
(`prev.rssi ?? -999`). -/
def scanStep (m : List (String × ScanEntry)) (res : Adv) : List (String × ScanEntry) :=
  match res.device with
  | none => m
  | some dev =>
    match getName res with
    | none => m
    | some rawName =>
      if nameMatches rawName then
        let id := dev.deviceId
        let prev := mapGet m id
        let entry : ScanEntry :=
          { id := id, name := rawName, rssi := res.rssi <|> prev.bind ScanEntry.rssi }
        match prev with
        | none => mapSet m id entry
        | some p =>
          match res.rssi with
          | some r => if p.rssi.getD (-999) < r then mapSet m id entry else m
          | none => m
      else m

/-- The sort key of line 714: `rssi ?? -100`. -/
def scanKey (e : ScanEntry) : Int := e.rssi.getD (-100)

/-- The order produced by the comparator
`(a, b) => (b.rssi ?? -100) - (a.rssi ?? -100)`: descending effective
strength. -/
def scanLe (a b : ScanEntry) : Prop := scanKey b ≤ scanKey a

instance : DecidableRel scanLe := fun _ _ => Int.decLe _ _

instance : IsTotal ScanEntry scanLe :=
  ⟨fun a b => (le_total (scanKey b) (scanKey a)).imp id id⟩

instance : IsTrans ScanEntry scanLe :=
  ⟨fun _ _ _ hab hbc => le_trans hbc hab⟩

/-- Embeds `scanForDevices` (lines 669-716) on the advertisements
observed in one window: fold the callback over them, take the map values
in insertion order, and sort by descending effective strength. The
JavaScript `Array.prototype.sort` is modelled as a sort producing a
permutation ordered by the comparator. -/
def scanForDevices (advs : List Adv) : List ScanEntry :=
  List.insertionSort scanLe ((advs.foldl scanStep []).map Prod.snd)

/-- One merge step of the strongest observed strength for a given id. -/
def strongStep (id : String) (acc : Option Int) (a : Adv) : Option Int :=
  if qualId a = some id then
    match a.rssi, acc with
    | some r, none => some r
    | some r, some m => some (max m r)
    | none, _ => acc
  else acc

/-- Modelled from the claim: the strongest signal strength among the
qualifying advertisements carrying a given device id, `none` when no
qualifying advertisement for that id reported a strength. -/
def specStrongestRssi (advs : List Adv) (id : String) : Option Int :=
  advs.foldl (strongStep id) none

/-- The invariant of the scan fold: `seen` are the advertisements already
processed, `m` the map. Keys are distinct; every stored entry carries its
key as id, a product-matching name, and exactly the strongest strength
observed for its id so far; and every id some qualifying seen
advertisement carries is a key. -/
def ScanInv (seen : List Adv) (m : List (String × ScanEntry)) : Prop :=
  (m.map Prod.fst).Nodup ∧
  (∀ p ∈ m, p.2.id = p.1 ∧ nameMatches p.2.name = true ∧
    p.2.rssi = specStrongestRssi seen p.1 ∧ ∃ a ∈ seen, qualId a = some p.1) ∧
  (∀ a ∈ seen, ∀ id, qualId a = some id → id ∈ m.map Prod.fst)

/-- Stated from the claim: every unknown-strength entry comes after every
known-strength entry (unknown strength sorts last). -/
def unknownSortsLast (l : List ScanEntry) : Prop :=
  l.Pairwise (fun a b => a.rssi = none → b.rssi = none)

/-- Counterexample advertisement: known but very weak strength. -/
def cexAdvWeak : Adv :=
  { device := some { deviceId := "a", name := none, localName := none }
    localName := some "MACHHAR-1", name := none, rssi := some (-120) }

/-- Counterexample advertisement: no strength reported. -/
def cexAdvUnknown : Adv :=
  { device := some { deviceId := "b", name := none, localName := none }
    localName := some "MACHHAR-2", name := none, rssi := none }

/-- The scan window of the sort counterexample. -/
def cexScanInput : List Adv := [cexAdvWeak, cexAdvUnknown]

/-- Two advertisements from one device id: first without a strength, then
with a strength below the -999 sentinel the merge logic compares
against. -/
def cexMergeInput : List Adv :=
  [{ device := some { deviceId := "c", name := none, localName := none }
     localName := some "MACHHAR-3", name := none, rssi := none },
   { device := some { deviceId := "c", name := none, localName := none }
     localName := some "MACHHAR-3", name := none, rssi := some (-1000) }]

/-- Two advertisements from one device id, strength -70 then -50. -/
def cexScanPair : List Adv :=
  [{ device := some { deviceId := "a", name := none, localName := none }
     localName := some "MACHHAR-1", name := none, rssi := some (-70) },
   { device := some { deviceId := "a", name := none, localName := none }
     localName := some "MACHHAR-1", name := none, rssi := some (-50) }]

/-! Helper lemmas. -/

theorem clamp_le_iff (n : Option Int) (lo hi : Int) (h : lo ≤ hi) :
    lo ≤ clamp n lo hi ∧ clamp n lo hi ≤ hi := by
  cases n <;> simp [clamp] <;> omega

theorem clamp_reclamp (n : Option Int) (lo hi : Int) (h0 : 0 ≤ lo) (h255 : hi ≤ 255)
    (hlh : lo ≤ hi) : clamp (some (clamp n lo hi)) 0 255 = clamp n lo hi := by
  cases n <;> simp [clamp] <;> omega

theorem encodeEntry_length (e : ScheduleEntry) : (encodeEntry e).length = 8 := rfl

theorem flatEnc_length (es : List ScheduleEntry) : (flatEnc es).length = 8 * es.length := by
  induction es with
  | nil => rfl
  | cons e rest ih => simp [flatEnc, encodeEntry_length, ih]; ring

theorem encodeEntriesFrom_ok (es : List ScheduleEntry) :
    ∀ i, (∀ e ∈ es, e.time7.length = 7) → encodeEntriesFrom i es = .ok (flatEnc es) := by
  induction es with
  | nil => intro i _; rfl
  | cons e rest ih =>
    intro i h
    have he : e.time7.length = 7 := h e (by simp)
    have hr := ih (i + 1) (fun x hx => h x (by simp [hx]))
    simp [encodeEntriesFrom, he, hr, flatEnc]

theorem flatEnc_drop (es : List ScheduleEntry) :
    ∀ (i : Nat) (h : i < es.length),
      (flatEnc es).drop (i * 8) =
        encodeEntry (es.get ⟨i, h⟩) ++ flatEnc (es.drop (i + 1)) := by
  induction es with
  | nil => intro i h; simp at h
  | cons e rest ih =>
    intro i h
    cases i with
    | zero => simp [flatEnc]
    | succ j =>
      have hj : j < rest.length := by simpa using Nat.lt_of_succ_lt_succ h
      have hdrop : (flatEnc (e :: rest)).drop ((j + 1) * 8) = (flatEnc rest).drop (j * 8) := by
        have h8 : (j + 1) * 8 = (encodeEntry e).length + j * 8 := by
          rw [encodeEntry_length]; ring
        rw [h8]
        show List.drop ((encodeEntry e).length + j * 8) (encodeEntry e ++ flatEnc rest) = _
        rw [List.drop_append]
      rw [hdrop, ih j hj]
      rfl

theorem map_mod_of_len7 (l : List Nat) (h : l.length = 7) :
    [l.getD 0 0 % 256, l.getD 1 0 % 256, l.getD 2 0 % 256, l.getD 3 0 % 256,
     l.getD 4 0 % 256, l.getD 5 0 % 256, l.getD 6 0 % 256] = l.map (· % 256) := by
  rcases l with _ | ⟨a, _ | ⟨b, _ | ⟨c, _ | ⟨d, _ | ⟨e, _ | ⟨f, _ | ⟨g, _ | ⟨x, t⟩⟩⟩⟩⟩⟩⟩⟩ <;>
    simp_all [List.getD]

theorem flatEnc_take_time7 (es : List ScheduleEntry) (i : Nat) (h : i < es.length)
    (h7 : (es.get ⟨i, h⟩).time7.length = 7) :
    ((flatEnc es).drop (i * 8)).take 7 = (es.get ⟨i, h⟩).time7.map (· % 256) := by
  rw [flatEnc_drop es i h]
  rw [← map_mod_of_len7 _ h7]
  rfl

theorem flatEnc_getD_intensity (es : List ScheduleEntry) (i : Nat) (h : i < es.length) :
    (flatEnc es).getD (i * 8 + 7) 0 = (es.get ⟨i, h⟩).intensity2b % 4 := by
  have hd : (flatEnc es).getD (i * 8 + 7) 0 = ((flatEnc es).drop (i * 8)).getD 7 0 := by
    simp [List.getD_eq_getElem?_getD, List.getElem?_drop]
  rw [hd, flatEnc_drop es i h]
  rfl

theorem mapGet_eq_none_iff (m : List (String × ScanEntry)) (k : String) :
    mapGet m k = none ↔ ∀ p ∈ m, p.1 ≠ k := by
  unfold mapGet
  rw [Option.map_eq_none', List.find?_eq_none]
  constructor
  · intro h p hp
    simpa using h p hp
  · intro h p hp
    simpa using h p hp

theorem mapGet_mem {m : List (String × ScanEntry)} {k : String} {v : ScanEntry}
    (h : mapGet m k = some v) : (k, v) ∈ m := by
  unfold mapGet at h
  obtain ⟨p, hfind, hpv⟩ := Option.map_eq_some'.mp h
  have hmem : p ∈ m := List.mem_of_find?_eq_some hfind
  have hkey : p.1 = k := by simpa using List.find?_some hfind
  have : p = (k, v) := by
    obtain ⟨p1, p2⟩ := p
    simp only at hkey hpv
    rw [hkey, hpv]
  rwa [this] at hmem

theorem key_unique {m : List (String × ScanEntry)} (hnod : (m.map Prod.fst).Nodup)
    {p q : String × ScanEntry} (hp : p ∈ m) (hq : q ∈ m) (hk : p.1 = q.1) : p = q := by
  induction m with
  | nil => cases hp
  | cons x xs ih =>
    rw [List.map_cons, List.nodup_cons] at hnod
    rcases List.mem_cons.mp hp with rfl | hp' <;> rcases List.mem_cons.mp hq with rfl | hq'
    · rfl
    · exact absurd (List.mem_map.mpr ⟨q, hq', hk.symm⟩) hnod.1
    · exact absurd (List.mem_map.mpr ⟨p, hp', hk⟩) hnod.1
    · exact ih hnod.2 hp' hq'

theorem mem_mapSet {m : List (String × ScanEntry)} {k : String} {v : ScanEntry}
    {p : String × ScanEntry} (hp : p ∈ mapSet m k v) :
    p = (k, v) ∨ (p ∈ m ∧ p.1 ≠ k) := by
  unfold mapSet at hp
  by_cases h : m.any (fun q => q.1 == k)
  · rw [if_pos h] at hp
    obtain ⟨q, hq, hfq⟩ := List.mem_map.mp hp
    by_cases hk : q.1 = k
    · left
      rw [if_pos (by simpa using hk)] at hfq
      exact hfq.symm
    · right
      rw [if_neg (by simpa using hk)] at hfq
      exact ⟨hfq ▸ hq, hfq ▸ hk⟩
  · rw [if_neg h] at hp
    rcases List.mem_append.mp hp with h1 | h2
    · right
      refine ⟨h1, fun hk => h ?_⟩
      exact List.any_eq_true.mpr ⟨p, h1, by simpa using hk⟩
    · left
      simpa using h2

theorem mem_mapSet_self (m : List (String × ScanEntry)) (k : String) (v : ScanEntry) :
    (k, v) ∈ mapSet m k v := by
  unfold mapSet
  by_cases h : m.any (fun q => q.1 == k)
  · rw [if_pos h]
    obtain ⟨q, hq, hqk⟩ := List.any_eq_true.mp h
    exact List.mem_map.mpr ⟨q, hq, by rw [if_pos hqk]⟩
  · rw [if_neg h]
    exact List.mem_append.mpr (Or.inr (List.mem_singleton_self _))

theorem keys_mapSet_mem {m : List (String × ScanEntry)} {k : String} (v : ScanEntry)
    (hk : mapGet m k ≠ none) : (mapSet m k v).map Prod.fst = m.map Prod.fst := by
  have hany : m.any (fun q => q.1 == k) = true := by
    rcases Option.ne_none_iff_exists'.mp hk with ⟨w, hw⟩
    exact List.any_eq_true.mpr ⟨(k, w), mapGet_mem hw, by simp⟩
  unfold mapSet
  rw [if_pos hany, List.map_map]
  apply List.map_congr_left
  intro q _
  by_cases h : q.1 = k
  · simp only [Function.comp]
    rw [if_pos (by simpa using h)]
    exact h.symm
  · simp only [Function.comp]
    rw [if_neg (by simpa using h)]

theorem keys_mapSet_not_mem {m : List (String × ScanEntry)} {k : String} (v : ScanEntry)
    (hk : mapGet m k = none) :
    (mapSet m k v).map Prod.fst = m.map Prod.fst ++ [k] := by
  have hnone := (mapGet_eq_none_iff m k).mp hk
  have hany : ¬ m.any (fun q => q.1 == k) = true := by
    intro h
    obtain ⟨q, hq, hqk⟩ := List.any_eq_true.mp h
    exact hnone q hq (by simpa using hqk)
  unfold mapSet
  rw [if_neg hany, List.map_append]
  rfl

theorem specStrongestRssi_append (seen : List Adv) (a : Adv) (id : String) :
    specStrongestRssi (seen ++ [a]) id = strongStep id (specStrongestRssi seen id) a := by
  simp [specStrongestRssi, List.foldl_append]

theorem strongStep_of_ne {id : String} {acc : Option Int} {a : Adv}
    (h : ¬ qualId a = some id) : strongStep id acc a = acc := by
  simp [strongStep, h]

theorem strongStep_rssi_none {id : String} {acc : Option Int} {a : Adv}
    (h : a.rssi = none) : strongStep id acc a = acc := by
  unfold strongStep
  by_cases hq : qualId a = some id <;> simp [hq, h]

theorem specStrongestRssi_of_no_qual :
    ∀ (seen : List Adv) (id : String),
      (∀ a ∈ seen, ¬ qualId a = some id) → specStrongestRssi seen id = none := by
  intro seen
  induction seen with
  | nil => intro id _; rfl
  | cons a rest ih =>
    intro id h
    show List.foldl (strongStep id) (strongStep id none a) rest = none
    rw [strongStep_of_ne (h a (by simp))]
    exact ih id (fun x hx => h x (by simp [hx]))

theorem ScanInv_extend_nonqual {seen : List Adv} {m : List (String × ScanEntry)} {a : Adv}
    (hq : qualId a = none) (h : ScanInv seen m) : ScanInv (seen ++ [a]) m := by
  obtain ⟨hnod, hpairs, hkeys⟩ := h
  refine ⟨hnod, ?_, ?_⟩
  · intro p hp
    obtain ⟨h1, h2, h3, x, hx, hx2⟩ := hpairs p hp
    refine ⟨h1, h2, ?_, x, List.mem_append_left _ hx, hx2⟩
    rw [specStrongestRssi_append, strongStep_of_ne (by simp [hq])]
    exact h3
  · intro x hx id hid
    rcases List.mem_append.mp hx with h1 | h2
    · exact hkeys x h1 id hid
    · rw [List.mem_singleton.mp h2] at hid
      rw [hq] at hid
      cases hid

theorem scanStep_no_device (m : List (String × ScanEntry)) (a : Adv)
    (hdev : a.device = none) : scanStep m a = m := by
  unfold scanStep
  rw [hdev]

theorem scanStep_no_name (m : List (String × ScanEntry)) (a : Adv) (dev : AdvDevice)
    (hdev : a.device = some dev) (hname : getName a = none) : scanStep m a = m := by
  unfold scanStep
  rw [hdev, hname]

theorem scanStep_named (m : List (String × ScanEntry)) (a : Adv) (dev : AdvDevice)
    (n : String) (hdev : a.device = some dev) (hname : getName a = some n) :
    scanStep m a =
      (if nameMatches n = true then
        match mapGet m dev.deviceId with
        | none => mapSet m dev.deviceId
            { id := dev.deviceId, name := n,
              rssi := a.rssi <|> (mapGet m dev.deviceId).bind ScanEntry.rssi }
        | some p =>
          match a.rssi with
          | some r =>
            if p.rssi.getD (-999) < r then
              mapSet m dev.deviceId
                { id := dev.deviceId, name := n,
                  rssi := a.rssi <|> (mapGet m dev.deviceId).bind ScanEntry.rssi }
            else m
          | none => m
      else m) := by
  unfold scanStep
  rw [hdev, hname]

theorem scanStep_inv {seen : List Adv} {m : List (String × ScanEntry)} (a : Adv)
    (ha : ∀ r : Int, a.rssi = some r → -127 ≤ r)
    (h : ScanInv seen m) : ScanInv (seen ++ [a]) (scanStep m a) := by
  obtain ⟨hnod, hpairs, hkeys⟩ := h
  cases hdev : a.device with
  | none =>
    rw [scanStep_no_device m a hdev]
    exact ScanInv_extend_nonqual (by simp [qualId, hdev]) ⟨hnod, hpairs, hkeys⟩
  | some dev =>
    cases hname : getName a with
    | none =>
      rw [scanStep_no_name m a dev hdev hname]
      exact ScanInv_extend_nonqual (by simp [qualId, hdev, hname]) ⟨hnod, hpairs, hkeys⟩
    | some rawName =>
      rw [scanStep_named m a dev rawName hdev hname]
      by_cases hmatch : nameMatches rawName = true
      case neg =>
        rw [if_neg hmatch]
        exact ScanInv_extend_nonqual (by simp [qualId, hdev, hname, hmatch])
          ⟨hnod, hpairs, hkeys⟩
      case pos =>
        rw [if_pos hmatch]
        have hqa : qualId a = some dev.deviceId := by simp [qualId, hdev, hname, hmatch]
        have hof_ne : ∀ (k : String), k ≠ dev.deviceId →
            ∀ acc, strongStep k acc a = acc := by
          intro k hk acc
          exact strongStep_of_ne (by rw [hqa]; exact fun hc => hk (Option.some_inj.mp hc).symm)
        cases hprev : mapGet m dev.deviceId with
        | none =>
          show ScanInv (seen ++ [a]) (mapSet m dev.deviceId
            { id := dev.deviceId, name := rawName,
              rssi := a.rssi <|> Option.bind none ScanEntry.rssi })
          have hnokey : ∀ p ∈ m, p.1 ≠ dev.deviceId := (mapGet_eq_none_iff _ _).mp hprev
          have hnoqual : ∀ x ∈ seen, ¬ qualId x = some dev.deviceId := by
            intro x hx hq
            obtain ⟨p, hp, hpk⟩ := List.mem_map.mp (hkeys x hx _ hq)
            exact hnokey p hp hpk
          have hstrong_none : specStrongestRssi seen dev.deviceId = none :=
            specStrongestRssi_of_no_qual seen _ hnoqual
          refine ⟨?_, ?_, ?_⟩
          · rw [keys_mapSet_not_mem _ hprev, List.nodup_append]
            refine ⟨hnod, List.nodup_singleton _, ?_⟩
            intro x hx hx2
            rw [List.mem_singleton.mp hx2] at hx
            obtain ⟨p, hp, hpk⟩ := List.mem_map.mp hx
            exact hnokey p hp hpk
          · intro p hp
            rcases mem_mapSet hp with rfl | ⟨hpm, hpne⟩
            · refine ⟨rfl, hmatch, ?_, a,
                List.mem_append_right _ (List.mem_singleton_self _), hqa⟩
              show (a.rssi <|> Option.bind none ScanEntry.rssi) =
                specStrongestRssi (seen ++ [a]) dev.deviceId
              rw [specStrongestRssi_append, hstrong_none]
              cases hrssi : a.rssi <;> simp [strongStep, hqa, hrssi]
            · obtain ⟨h1, h2, h3, x, hx, hx2⟩ := hpairs p hpm
              refine ⟨h1, h2, ?_, x, List.mem_append_left _ hx, hx2⟩
              rw [specStrongestRssi_append, hof_ne p.1 hpne _]
              exact h3
          · intro x hx id' hid'
            rw [keys_mapSet_not_mem _ hprev]
            rcases List.mem_append.mp hx with h1 | h2
            · exact List.mem_append_left _ (hkeys x h1 id' hid')
            · rw [List.mem_singleton.mp h2] at hid'
              rw [hqa] at hid'
              rw [← Option.some_inj.mp hid']
              exact List.mem_append_right _ (List.mem_singleton_self _)
        | some p0 =>
          show ScanInv (seen ++ [a])
            (match a.rssi with
             | some r =>
               if p0.rssi.getD (-999) < r then
                 mapSet m dev.deviceId
                   { id := dev.deviceId, name := rawName,
                     rssi := a.rssi <|> Option.bind (some p0) ScanEntry.rssi }
               else m
             | none => m)
          have hp0m : (dev.deviceId, p0) ∈ m := mapGet_mem hprev
          obtain ⟨hp0id, hp0name, hp0rssi, x0, hx0, hx02⟩ := hpairs _ hp0m
          have hkeys' : ∀ x ∈ seen ++ [a], ∀ id', qualId x = some id' →
              id' ∈ m.map Prod.fst := by
            intro x hx id' hid'
            rcases List.mem_append.mp hx with h1 | h2
            · exact hkeys x h1 id' hid'
            · rw [List.mem_singleton.mp h2] at hid'
              rw [hqa] at hid'
              rw [← Option.some_inj.mp hid']
              exact List.mem_map.mpr ⟨(dev.deviceId, p0), hp0m, rfl⟩
          cases hrssi : a.rssi with
          | none =>
            show ScanInv (seen ++ [a]) m
            refine ⟨hnod, ?_, hkeys'⟩
            intro p hp
            obtain ⟨h1, h2, h3, x, hx, hx2⟩ := hpairs p hp
            refine ⟨h1, h2, ?_, x, List.mem_append_left _ hx, hx2⟩
            rw [specStrongestRssi_append, strongStep_rssi_none hrssi]
            exact h3
          | some r =>
            show ScanInv (seen ++ [a])
              (if p0.rssi.getD (-999) < r then
                mapSet m dev.deviceId
                  { id := dev.deviceId, name := rawName,
                    rssi := some r <|> Option.bind (some p0) ScanEntry.rssi }
               else m)
            have har : -127 ≤ r := ha r hrssi
            by_cases hcond : p0.rssi.getD (-999) < r
            case pos =>
              rw [if_pos hcond]
              have hksame := @keys_mapSet_mem m dev.deviceId
                ({ id := dev.deviceId, name := rawName,
                   rssi := some r <|> Option.bind (some p0) ScanEntry.rssi })
                (by rw [hprev]; simp)
              refine ⟨?_, ?_, ?_⟩
              · rw [hksame]; exact hnod
              · intro p hp
                rcases mem_mapSet hp with rfl | ⟨hpm, hpne⟩
                · refine ⟨rfl, hmatch, ?_, a,
                    List.mem_append_right _ (List.mem_singleton_self _), hqa⟩
                  show (some r <|> Option.bind (some p0) ScanEntry.rssi) =
                    specStrongestRssi (seen ++ [a]) dev.deviceId
                  rw [specStrongestRssi_append, ← hp0rssi]
                  cases hp0r : p0.rssi with
                  | none => simp [strongStep, hqa, hrssi, hp0r]
                  | some m0 =>
                    have hlt : m0 < r := by
                      rw [hp0r] at hcond
                      simpa using hcond
                    simp [strongStep, hqa, hrssi, hp0r, max_eq_right (le_of_lt hlt)]
                · obtain ⟨h1, h2, h3, x, hx, hx2⟩ := hpairs p hpm
                  refine ⟨h1, h2, ?_, x, List.mem_append_left _ hx, hx2⟩
                  rw [specStrongestRssi_append, hof_ne p.1 hpne _]
                  exact h3
              · intro x hx id' hid'
                rw [hksame]
                exact hkeys' x hx id' hid'
            case neg =>
              rw [if_neg hcond]
              have hp0some : ∃ m0, p0.rssi = some m0 ∧ r ≤ m0 := by
                cases hp0r : p0.rssi with
                | none =>
                  exfalso
                  apply hcond
                  rw [hp0r]
                  show (-999 : Int) < r
                  omega
                | some m0 =>
                  refine ⟨m0, rfl, ?_⟩
                  rw [hp0r] at hcond
                  simpa using hcond
              obtain ⟨m0, hp0r, hrm⟩ := hp0some
              refine ⟨hnod, ?_, hkeys'⟩
              intro p hp
              obtain ⟨h1, h2, h3, x, hx, hx2⟩ := hpairs p hp
              refine ⟨h1, h2, ?_, x, List.mem_append_left _ hx, hx2⟩
              rw [specStrongestRssi_append]
              by_cases hpk : p.1 = dev.deviceId
              · have hpeq : p = (dev.deviceId, p0) := key_unique hnod hp hp0m (by rw [hpk])
                rw [hpeq]
                show p0.rssi = strongStep dev.deviceId (specStrongestRssi seen dev.deviceId) a
                have hp0rssi' : p0.rssi = specStrongestRssi seen dev.deviceId := hp0rssi
                rw [← hp0rssi', hp0r]
                simp [strongStep, hqa, hrssi, max_eq_left hrm]
              · rw [hof_ne p.1 hpk _]
                exact h3

theorem scanFold_inv :
    ∀ (rest seen : List Adv) (m : List (String × ScanEntry)),
      (∀ a ∈ rest, ∀ r : Int, a.rssi = some r → -127 ≤ r) →
      ScanInv seen m → ScanInv (seen ++ rest) (rest.foldl scanStep m) := by
  intro rest
  induction rest with
  | nil => intro seen m _ h; simpa using h
  | cons a rest ih =>
    intro seen m hr h
    have h1 := scanStep_inv a (hr a (by simp)) h
    have h2 := ih (seen ++ [a]) (scanStep m a) (fun x hx => hr x (by simp [hx])) h1
    simpa [List.append_assoc] using h2

/-! Claim theorems. -/

/-- C5: for every negotiated MTU `m ≥ 23`, the write payload limit the
codecs use equals `max(20, m-3)` and the read payload limit equals
`max(1, m-1)`; both are at least their floors (20 and 1), and when
negotiation failed or is unsupported the default MTU 23 applies, giving
the same formulas at `m = 23`. -/
theorem payload_limits_from_mtu (m : Nat) (hm : 23 ≤ m) :
    writePayloadLimit (some m) = specWritePayloadLimit m ∧
    readPayloadLimit (some m) = specReadPayloadLimit m ∧
    20 ≤ writePayloadLimit (some m) ∧
    1 ≤ readPayloadLimit (some m) ∧
    writePayloadLimit none = specWritePayloadLimit 23 ∧
    readPayloadLimit none = specReadPayloadLimit 23 := by
  simp only [writePayloadLimit, readPayloadLimit, specWritePayloadLimit, specReadPayloadLimit,
    Option.getD_some, Option.getD_none]
  exact ⟨trivial, by omega, by omega, by omega, trivial, by omega⟩

/-- Witness for C5 at the negotiated MTU 247. -/
theorem payload_limits_from_mtu_witness :
    23 ≤ 247 ∧
    (writePayloadLimit (some 247) = specWritePayloadLimit 247 ∧
     readPayloadLimit (some 247) = specReadPayloadLimit 247 ∧
     20 ≤ writePayloadLimit (some 247) ∧
     1 ≤ readPayloadLimit (some 247) ∧
     writePayloadLimit none = specWritePayloadLimit 23 ∧
     readPayloadLimit none = specReadPayloadLimit 23) :=
  ⟨by decide, payload_limits_from_mtu 247 (by decide)⟩

/-- C2: schedule decode is truncation-safe: for every byte sequence the
decoder returns `min(advertised header count, floor((length-1)/8))`
entries, every byte it touches lies inside the buffer (`1 + i*8 + 8 ≤
length` for each decoded record), and it is a total function; in
particular a buffer advertising 10 entries over 24 record bytes decodes
to exactly 3 entries. -/
theorem parseSchedulePayload_truncation_safe (raw : List Nat) :
    (parseSchedulePayload raw).count = min (raw.headD 0) ((raw.length - 1) / 8) ∧
    (parseSchedulePayload raw).entries.length = (parseSchedulePayload raw).count ∧
    (∀ i, i < (parseSchedulePayload raw).count → 1 + i * 8 + 8 ≤ raw.length) ∧
    (parseSchedulePayload (10 :: List.range 24)).count = 3 ∧
    (parseSchedulePayload (10 :: List.range 24)).entries.length = 3 := by
  refine ⟨?_, ?_, ?_, by decide, by decide⟩
  · by_cases h : raw.length < 1
    · have : raw = [] := List.length_eq_zero.mp (by omega)
      subst this; simp [parseSchedulePayload]
    · simp [parseSchedulePayload, h]
  · by_cases h : raw.length < 1
    · simp [parseSchedulePayload, h]
    · simp [parseSchedulePayload, h]
  · intro i hi
    by_cases h : raw.length < 1
    · simp [parseSchedulePayload, h] at hi
    · simp only [parseSchedulePayload, if_neg h] at hi
      have harr : (parseSchedulePayload raw).count ≤ (raw.length - 1) / 8 := by
        simp [parseSchedulePayload, h]
      have hi' : i < (raw.length - 1) / 8 := by
        have := lt_of_lt_of_le (a := i) (by simpa [parseSchedulePayload, h] using hi) harr
        simpa [parseSchedulePayload, h] using this
      have h8 : (i + 1) * 8 ≤ raw.length - 1 :=
        (Nat.le_div_iff_mul_le (by norm_num)).mp hi'
      omega

/-- Witness for C2 at the truncated buffer of the scenario. -/
theorem parseSchedulePayload_truncation_safe_witness :
    (parseSchedulePayload (10 :: List.range 24)).count =
      min ((10 :: List.range 24).headD 0) (((10 :: List.range 24).length - 1) / 8) ∧
    (parseSchedulePayload (10 :: List.range 24)).entries.length =
      (parseSchedulePayload (10 :: List.range 24)).count ∧
    (∀ i, i < (parseSchedulePayload (10 :: List.range 24)).count →
      1 + i * 8 + 8 ≤ (10 :: List.range 24).length) ∧
    (parseSchedulePayload (10 :: List.range 24)).count = 3 ∧
    (parseSchedulePayload (10 :: List.range 24)).entries.length = 3 :=
  parseSchedulePayload_truncation_safe (10 :: List.range 24)

/-- C10: for every byte sequence, the statistics decoder returns a value
whose `window` field equals the number of entries actually decoded,
namely `min(header window byte, floor((length-2)/8))` — the trusted
count, not the raw header byte — every decoded entry has exactly 7 time
bytes and a 2-bit intensity, every byte touched lies inside the buffer,
and decoding is a total function. -/
theorem parseStatsPayload_invariant (raw : List Nat) :
    (parseStatsPayload raw).window = min (raw.getD 1 0) ((raw.length - 2) / 8) ∧
    (parseStatsPayload raw).entries.length = (parseStatsPayload raw).window ∧
    (parseStatsPayload raw).total = (if raw.length < 2 then 0 else raw.headD 0) ∧
    (∀ e ∈ (parseStatsPayload raw).entries, e.time7.length = 7 ∧ e.intensity2b ≤ 3) ∧
    (∀ i, i < (parseStatsPayload raw).window → 2 + i * 8 + 8 ≤ raw.length) := by
  by_cases h : raw.length < 2
  · have hwin : (parseStatsPayload raw).window = 0 := by simp [parseStatsPayload, h]
    refine ⟨?_, ?_, ?_, ?_, ?_⟩
    · rw [hwin]; omega
    · simp [parseStatsPayload, h]
    · simp [parseStatsPayload, h]
    · simp [parseStatsPayload, h]
    · intro i hi; rw [hwin] at hi; omega
  · have hwin : (parseStatsPayload raw).window = min (raw.getD 1 0) ((raw.length - 2) / 8) := by
      simp [parseStatsPayload, h]
    have hbound : ∀ i, i < (parseStatsPayload raw).window → 2 + i * 8 + 8 ≤ raw.length := by
      intro i hi
      rw [hwin] at hi
      have hi' : i < (raw.length - 2) / 8 := lt_of_lt_of_le hi (min_le_right _ _)
      have h8 : (i + 1) * 8 ≤ raw.length - 2 :=
        (Nat.le_div_iff_mul_le (by norm_num)).mp hi'
      omega
    refine ⟨hwin, ?_, ?_, ?_, hbound⟩
    · simp [parseStatsPayload, h]
    · simp [parseStatsPayload, h]
    · intro e he
      have he' : e ∈ (List.range (min (raw.getD 1 0) ((raw.length - 2) / 8))).map
          (fun i => ({ time7 := (raw.drop (2 + i * 8)).take 7,
                       intensity2b := raw.getD (2 + i * 8 + 7) 0 % 4 } : StatsEntry)) := by
        simpa [parseStatsPayload, h] using he
      obtain ⟨i, hi, rfl⟩ := List.mem_map.mp he'
      have hi' : i < (parseStatsPayload raw).window := by
        rw [hwin]; simpa using hi
      have hb := hbound i hi'
      constructor
      · simp only [List.length_take, List.length_drop]
        omega
      · have h4 : raw.getD (2 + i * 8 + 7) 0 % 4 < 4 := Nat.mod_lt _ (by norm_num)
        simpa using Nat.lt_succ_iff.mp h4

/-- C7: time-sync encoding: for every calendar timestamp the bytes handed
to the time-sync characteristic are the ordered 7-tuple
`[sec, min, hour, mday, wday, month(0-11), year-1900]` with each field
clamped to its range; each clamp stays within `[lo, hi]`, a `NaN` field
clamps to the range floor, and an hour of 25 clamps to 23. -/
theorem syncTimeFromDate_clamps (d : JSDate) :
    syncTimeFromDateWrite d = .ok
      [clamp d.seconds 0 59, clamp d.minutes 0 59, clamp d.hours 0 23,
       clamp d.date 1 31, clamp d.day 0 6, clamp d.month 0 11,
       clamp (d.fullYear.map (fun y => y - 1900)) 0 255] ∧
    (∀ (n : Option Int) (lo hi : Int), lo ≤ hi →
      lo ≤ clamp n lo hi ∧ clamp n lo hi ≤ hi) ∧
    (∀ (lo hi : Int), clamp none lo hi = lo) ∧
    clamp (some 25) 0 23 = 23 ∧
    clamp none 0 59 = 0 := by
  refine ⟨?_, fun n lo hi h => clamp_le_iff n lo hi h, fun lo hi => rfl, by decide, by decide⟩
  show syncTimeRaw (syncTimeFromDate d) = _
  simp only [syncTimeFromDate, syncTimeRaw, List.length_cons, List.length_nil,
    if_pos rfl, List.map_cons, List.map_nil]
  rw [clamp_reclamp d.seconds 0 59 (by norm_num) (by norm_num) (by norm_num),
    clamp_reclamp d.minutes 0 59 (by norm_num) (by norm_num) (by norm_num),
    clamp_reclamp d.hours 0 23 (by norm_num) (by norm_num) (by norm_num),
    clamp_reclamp d.date 1 31 (by norm_num) (by norm_num) (by norm_num),
    clamp_reclamp d.day 0 6 (by norm_num) (by norm_num) (by norm_num),
    clamp_reclamp d.month 0 11 (by norm_num) (by norm_num) (by norm_num),
    clamp_reclamp (d.fullYear.map (fun y => y - 1900)) 0 255 (by norm_num) (by norm_num)
      (by norm_num)]
  simp

/-- Witness for C7: an invalid-second, hour-25 timestamp encodes to
`[0, 59, 23, 11, 6, 9, 125]`. -/
theorem syncTimeFromDate_clamps_witness :
    syncTimeFromDateWrite
        { fullYear := some 2025, month := some 9, date := some 11, hours := some 25,
          minutes := some 61, seconds := none, day := some 6 } =
      .ok [0, 59, 23, 11, 6, 9, 125] := by
  rw [(syncTimeFromDate_clamps
    { fullYear := some 2025, month := some 9, date := some 11, hours := some 25,
      minutes := some 61, seconds := none, day := some 6 }).1]
  norm_num [clamp]

/-- C6 counterexample: at the default MTU 23, a requested window of 0 is
replaced by the one-PDU-safe maximum `max(1, floor((23-1-2)/8)) = 2`; the
control pair written is `[0, 2]`, never the `[0, 0]` device-decides pair
the claim states. -/
theorem readStatisticsControl_cex :
    readStatisticsControl (some 23) 0 0 = [0, 2] ∧
    readStatisticsControl (some 23) 0 0 ≠ [0, 0] := by
  constructor <;> decide

/-- C6 amended: the control pair is `[clamp(start,0,255), winB]` where a
requested window of 0 yields `winB = max(1, floor((mtu-3)/8))` (the
one-PDU-safe maximum — the device-decides byte 0 is never written) and a
nonzero request yields the request clamped to `[1,63]` and capped at that
maximum; in both cases `winB ≥ 1` and the answer
`2 + 8*winB` bytes fits the read payload limit `mtu - 1`. -/
theorem readStatisticsControl_amended (mtu : Nat) (start window : Int) (hm : 23 ≤ mtu) :
    readStatisticsControl (some mtu) start window =
      [clamp (some start) 0 255,
       if window = 0 then ((max 1 ((mtu - 3) / 8) : Nat) : Int)
       else min (clamp (some window) 1 63) ((max 1 ((mtu - 3) / 8) : Nat) : Int)] ∧
    1 ≤ (readStatisticsControl (some mtu) start window).getD 1 0 ∧
    2 + 8 * (readStatisticsControl (some mtu) start window).getD 1 0 ≤ (mtu : Int) - 1 := by
  have hsub : mtu - 1 - 2 = mtu - 3 := by omega
  have hq8 : (mtu - 3) / 8 * 8 ≤ mtu - 3 := Nat.div_mul_le_self _ _
  have hq2 : 2 ≤ (mtu - 3) / 8 :=
    (Nat.le_div_iff_mul_le (by norm_num)).mpr (by omega)
  have hview : (readStatisticsControl (some mtu) start window).getD 1 0 =
      (if window = 0 then ((max 1 ((mtu - 3) / 8) : Nat) : Int)
       else min (clamp (some window) 1 63) ((max 1 ((mtu - 3) / 8) : Nat) : Int)) := by
    simp only [readStatisticsControl, Option.getD_some, hsub]
    by_cases hw : window = 0 <;> simp [hw, List.getD]
  refine ⟨by simp only [readStatisticsControl, Option.getD_some, hsub], ?_, ?_⟩
  · rw [hview]
    by_cases hw : window = 0
    · rw [if_pos hw]; omega
    · rw [if_neg hw]; simp only [clamp]; omega
  · rw [hview]
    by_cases hw : window = 0
    · rw [if_pos hw]; omega
    · rw [if_neg hw]; simp only [clamp]; omega

/-- Witness for C6 at MTU 23, start 300, requested window 100: the
control pair is `[255, 2]`. -/
theorem readStatisticsControl_amended_witness :
    (23 : Nat) ≤ 23 ∧
    (readStatisticsControl (some 23) 300 100 =
      [clamp (some 300) 0 255,
       if (100 : Int) = 0 then ((max 1 ((23 - 3) / 8) : Nat) : Int)
       else min (clamp (some 100) 1 63) ((max 1 ((23 - 3) / 8) : Nat) : Int)] ∧
     1 ≤ (readStatisticsControl (some 23) 300 100).getD 1 0 ∧
     2 + 8 * (readStatisticsControl (some 23) 300 100).getD 1 0 ≤ ((23 : Nat) : Int) - 1) ∧
    readStatisticsControl (some 23) 300 100 = [255, 2] :=
  ⟨by decide, readStatisticsControl_amended 23 300 100 (by decide), by decide⟩

/-- C3: `writeSchedule` fails fast with the payload-too-large error when
the assembled byte count `1 + 8*count` exceeds the effective write
payload limit, the error carrying the maximal representable entry count
`floor((limit-1)/8)` and the attempted count, and no bytes are written
(the encode result is the error, not a truncated or split payload). -/
theorem writeSchedule_payloadTooLarge
    (entries : List ScheduleEntry) (currentMtu currentPayloadLimit : Option Nat)
    (h7 : ∀ e ∈ entries, e.time7.length = 7)
    (hbig : max 20 (currentPayloadLimit.getD (currentMtu.getD 23 - 3)) <
      1 + 8 * min 255 entries.length) :
    writeSchedule entries currentMtu currentPayloadLimit =
      .error (.payloadTooLarge (currentMtu.getD 23)
        ((max 20 (currentPayloadLimit.getD (currentMtu.getD 23 - 3)) - 1) / 8)
        (min 255 entries.length)) := by
  have htake : ∀ e ∈ entries.take (min 255 entries.length), e.time7.length = 7 :=
    fun e he => h7 e (List.take_subset _ _ he)
  have henc := encodeEntriesFrom_ok (entries.take (min 255 entries.length)) 0 htake
  have hlen : (flatEnc (entries.take (min 255 entries.length))).length
      = 8 * min 255 entries.length := by
    rw [flatEnc_length, List.length_take]
    congr 1
    omega
  simp only [writeSchedule, henc]
  rw [if_pos (by simp only [List.length_cons, hlen]; omega)]
  simp [Nat.zero_max]

/-- Witness for C3: 5 entries at MTU 23 (write payload limit 20) fail
with max 2, attempted 5. -/
theorem writeSchedule_payloadTooLarge_witness :
    (∀ e ∈ List.replicate 5 ({ time7 := [0, 0, 0, 0, 0, 0, 0], intensity2b := 1 } :
        ScheduleEntry), e.time7.length = 7) ∧
    max 20 ((some 20).getD ((some 23).getD 23 - 3)) <
      1 + 8 * min 255 (List.replicate 5 ({ time7 := [0, 0, 0, 0, 0, 0, 0], intensity2b := 1 } :
        ScheduleEntry)).length ∧
    writeSchedule
        (List.replicate 5 ({ time7 := [0, 0, 0, 0, 0, 0, 0], intensity2b := 1 } : ScheduleEntry))
        (some 23) (some 20) =
      .error (.payloadTooLarge 23 2 5) := by
  refine ⟨by decide, by decide, ?_⟩
  exact writeSchedule_payloadTooLarge
    (List.replicate 5 ({ time7 := [0, 0, 0, 0, 0, 0, 0], intensity2b := 1 } : ScheduleEntry))
    (some 23) (some 20) (by decide) (by decide)

/-- C1: schedule codec round trip: for every entry list of length
`N ≤ floor((writePayloadLimit-1)/8)` (over a negotiated MTU in the BLE
range 23..517, the largest the code ever requests), `writeSchedule`
assembles `[count, entry bytes...]` and succeeds, and decoding those
bytes yields exactly `N` entries whose time bytes are the originals mod
256 and whose intensity is the original masked to 2 bits. -/
theorem writeSchedule_roundTrip (entries : List ScheduleEntry) (mtu : Nat)
    (h7 : ∀ e ∈ entries, e.time7.length = 7)
    (hlo : 23 ≤ mtu) (hhi : mtu ≤ 517)
    (hN : entries.length ≤ (writePayloadLimit (some mtu) - 1) / 8) :
    writeSchedule entries (some mtu) (some (writePayloadLimit (some mtu))) =
      .ok (entries.length :: flatEnc entries) ∧
    parseSchedulePayload (entries.length :: flatEnc entries) =
      { count := entries.length, entries := entries.map maskEntry } := by
  have hwpl20 : 20 ≤ writePayloadLimit (some mtu) := le_max_left _ _
  have hwpl514 : writePayloadLimit (some mtu) ≤ 514 := by
    simp only [writePayloadLimit, Option.getD_some]
    omega
  have hN255 : entries.length ≤ 255 := by omega
  have hmin : min 255 entries.length = entries.length := by omega
  have h8N : entries.length * 8 ≤ writePayloadLimit (some mtu) - 1 :=
    (Nat.le_div_iff_mul_le (by norm_num)).mp hN
  have henc := encodeEntriesFrom_ok entries 0 h7
  constructor
  · simp only [writeSchedule, hmin, List.take_length, henc]
    rw [if_neg (by simp only [List.length_cons, flatEnc_length, Option.getD_some]; omega)]
  · have hlen1 : ¬ ((entries.length :: flatEnc entries).length < 1) := by simp
    have harr : ((entries.length :: flatEnc entries).length - 1) / 8 = entries.length := by
      simp only [List.length_cons, flatEnc_length, Nat.add_sub_cancel]
      exact Nat.mul_div_cancel_left _ (by norm_num)
    simp only [parseSchedulePayload, if_neg hlen1, List.headD_cons, harr, Nat.zero_max,
      Nat.min_self]
    refine congrArg _ ?_
    apply List.ext_getElem
    · simp
    · intro i h1 h2
      have hi : i < entries.length := by simpa using h1
      have hh7 : (entries.get ⟨i, hi⟩).time7.length = 7 := h7 _ (List.get_mem entries i hi)
      simp only [List.getElem_map, List.getElem_range]
      have hdrop : (entries.length :: flatEnc entries).drop (1 + i * 8) =
          (flatEnc entries).drop (i * 8) := by
        rw [Nat.add_comm 1 (i * 8)]
        exact List.drop_succ_cons
      have hgetD : (entries.length :: flatEnc entries).getD (1 + i * 8 + 7) 0 =
          (flatEnc entries).getD (i * 8 + 7) 0 := by
        have : 1 + i * 8 + 7 = (i * 8 + 7) + 1 := by ring
        rw [this]
        rfl
      rw [hdrop, hgetD, flatEnc_take_time7 entries i hi hh7, flatEnc_getD_intensity entries i hi]
      simp [maskEntry, List.get_eq_getElem, Nat.mod_mod_of_dvd _ (dvd_refl 4)]

/-- Witness for C1: two entries round trip at MTU 247, with an
out-of-range time byte reduced mod 256 and the intensity masked. -/
theorem writeSchedule_roundTrip_witness :
    (∀ e ∈ ([{ time7 := [1, 2, 3, 4, 5, 6, 300], intensity2b := 7 },
              { time7 := [0, 0, 0, 0, 0, 0, 0], intensity2b := 2 }] : List ScheduleEntry),
      e.time7.length = 7) ∧
    (23 : Nat) ≤ 247 ∧ (247 : Nat) ≤ 517 ∧
    ([{ time7 := [1, 2, 3, 4, 5, 6, 300], intensity2b := 7 },
      { time7 := [0, 0, 0, 0, 0, 0, 0], intensity2b := 2 }] : List ScheduleEntry).length ≤
      (writePayloadLimit (some 247) - 1) / 8 ∧
    (writeSchedule
        ([{ time7 := [1, 2, 3, 4, 5, 6, 300], intensity2b := 7 },
          { time7 := [0, 0, 0, 0, 0, 0, 0], intensity2b := 2 }] : List ScheduleEntry)
        (some 247) (some (writePayloadLimit (some 247))) =
      .ok (([{ time7 := [1, 2, 3, 4, 5, 6, 300], intensity2b := 7 },
             { time7 := [0, 0, 0, 0, 0, 0, 0], intensity2b := 2 }] : List ScheduleEntry).length ::
        flatEnc [{ time7 := [1, 2, 3, 4, 5, 6, 300], intensity2b := 7 },
                 { time7 := [0, 0, 0, 0, 0, 0, 0], intensity2b := 2 }]) ∧
     parseSchedulePayload
        (([{ time7 := [1, 2, 3, 4, 5, 6, 300], intensity2b := 7 },
            { time7 := [0, 0, 0, 0, 0, 0, 0], intensity2b := 2 }] : List ScheduleEntry).length ::
          flatEnc [{ time7 := [1, 2, 3, 4, 5, 6, 300], intensity2b := 7 },
                   { time7 := [0, 0, 0, 0, 0, 0, 0], intensity2b := 2 }]) =
      { count := ([{ time7 := [1, 2, 3, 4, 5, 6, 300], intensity2b := 7 },
                   { time7 := [0, 0, 0, 0, 0, 0, 0], intensity2b := 2 }] :
          List ScheduleEntry).length
        entries := ([{ time7 := [1, 2, 3, 4, 5, 6, 300], intensity2b := 7 },
                     { time7 := [0, 0, 0, 0, 0, 0, 0], intensity2b := 2 }] :
          List ScheduleEntry).map maskEntry }) ∧
    parseSchedulePayload (2 :: flatEnc [{ time7 := [1, 2, 3, 4, 5, 6, 300], intensity2b := 7 },
                                        { time7 := [0, 0, 0, 0, 0, 0, 0], intensity2b := 2 }]) =
      { count := 2
        entries := [{ time7 := [1, 2, 3, 4, 5, 6, 44], intensity2b := 3 },
                    { time7 := [0, 0, 0, 0, 0, 0, 0], intensity2b := 2 }] } :=
  ⟨by decide, by decide, by decide, by decide,
   writeSchedule_roundTrip _ 247 (by decide) (by decide) (by decide) (by decide), by decide⟩

/-- C4 counterexample: the claim states that for writes, as for reads,
transient failures are retried up to 4 attempts. The code performs
exactly one underlying write attempt: with an oracle whose first attempt
fails with a transient (non-disconnect) error and whose second attempt
would succeed, `writeCharacteristic` surfaces the transient error after
the single attempt `[1]` instead of retrying and succeeding. -/
theorem writeCharacteristic_no_retry_cex :
    (writeCharacteristic cexWriteOracle).result = .error busyErr ∧
    (writeCharacteristic cexWriteOracle).attempts = [1] ∧
    looksDisconnected busyErr.message = false ∧
    cexWriteOracle 2 = .ok () := by
  refine ⟨rfl, rfl, by decide, rfl⟩

/-- C4 amended: reads are retried up to 4 attempts with backoff
`40ms * attempt`: three transient failures followed by a success on the
4th attempt return the value after sleeps `[40, 80, 120]`; a
disconnect-classified failure on any attempt `k` (after transient
failures on the attempts before it) fails immediately after attempt `k`,
with only the preceding transient backoffs performed, and clears the
connection (subscribers notified); exhausting all 4 attempts transiently
surfaces the 4th attempt's error unchanged after sleeps
`[40, 80, 120, 160]`. Writes are not retried: one attempt is made, any
failure propagates immediately, and the connection is cleared exactly
when the write-side classification (which lacks the `gatt 133` case)
matches. -/
theorem characteristic_io_retry_amended :
    (∀ (oracle : Nat → Except BleErr (List Nat)) (v : List Nat) (e1 e2 e3 : BleErr),
      oracle 1 = .error e1 → looksDisconnected e1.message = false →
      oracle 2 = .error e2 → looksDisconnected e2.message = false →
      oracle 3 = .error e3 → looksDisconnected e3.message = false →
      oracle 4 = .ok v →
      readCharacteristic oracle =
        { result := .ok v, attempts := [1, 2, 3, 4], sleeps := [40, 80, 120],
          cleared := false }) ∧
    (∀ (oracle : Nat → Except BleErr (List Nat)) (k : Nat) (e : BleErr),
      1 ≤ k → k ≤ 4 →
      (∀ j, 1 ≤ j → j < k →
        ∃ ej, oracle j = .error ej ∧ looksDisconnected ej.message = false) →
      oracle k = .error e → looksDisconnected e.message = true →
      readCharacteristic oracle =
        { result := .error e, attempts := List.range' 1 k,
          sleeps := (List.range' 1 (k - 1)).map (fun j => 40 * j),
          cleared := true }) ∧
    (∀ (oracle : Nat → Except BleErr (List Nat)) (e1 e2 e3 e4 : BleErr),
      oracle 1 = .error e1 → looksDisconnected e1.message = false →
      oracle 2 = .error e2 → looksDisconnected e2.message = false →
      oracle 3 = .error e3 → looksDisconnected e3.message = false →
      oracle 4 = .error e4 → looksDisconnected e4.message = false →
      readCharacteristic oracle =
        { result := .error e4, attempts := [1, 2, 3, 4], sleeps := [40, 80, 120, 160],
          cleared := false }) ∧
    (∀ (oracle : Nat → Except BleErr Unit) (e : BleErr),
      oracle 1 = .error e →
      writeCharacteristic oracle =
        { result := .error e, attempts := [1],
          cleared := writeLooksDisconnected e.message }) ∧
    (∀ (oracle : Nat → Except BleErr Unit) (v : Unit),
      oracle 1 = .ok v →
      writeCharacteristic oracle =
        { result := .ok (), attempts := [1], cleared := false }) := by
  refine ⟨?_, ?_, ?_, ?_, ?_⟩
  · intro oracle v e1 e2 e3 h1 he1 h2 he2 h3 he3 h4
    simp [readCharacteristic, readGo, h1, he1, h2, he2, h3, he3, h4]
  · intro oracle k e hk1 hk4 hpre hk hd
    interval_cases k
    · simp [readCharacteristic, readGo, hk, hd, List.range']
    · obtain ⟨e1, h1, he1⟩ := hpre 1 (by omega) (by omega)
      simp [readCharacteristic, readGo, h1, he1, hk, hd, List.range']
    · obtain ⟨e1, h1, he1⟩ := hpre 1 (by omega) (by omega)
      obtain ⟨e2, h2, he2⟩ := hpre 2 (by omega) (by omega)
      simp [readCharacteristic, readGo, h1, he1, h2, he2, hk, hd, List.range']
    · obtain ⟨e1, h1, he1⟩ := hpre 1 (by omega) (by omega)
      obtain ⟨e2, h2, he2⟩ := hpre 2 (by omega) (by omega)
      obtain ⟨e3, h3, he3⟩ := hpre 3 (by omega) (by omega)
      simp [readCharacteristic, readGo, h1, he1, h2, he2, h3, he3, hk, hd, List.range']
  · intro oracle e1 e2 e3 e4 h1 he1 h2 he2 h3 he3 h4 he4
    have hc : lowerContains e4.message "disconnected" = false := by
      rcases Bool.or_eq_false_iff.mp (Bool.or_eq_false_iff.mp
        (by simpa [looksDisconnected] using he4)).1 with ⟨ha, _⟩
      exact ha
    simp [readCharacteristic, readGo, h1, he1, h2, he2, h3, he3, h4, he4, hc]
  · intro oracle e h1
    simp [writeCharacteristic, h1]
  · intro oracle v h1
    simp [writeCharacteristic, h1]

/-- Witness for the amended C4: the retry-then-succeed scenario, a
disconnect on attempt 1, a disconnect on attempt 2 after one transient
failure (one backoff of 40ms performed), and the single-attempt write,
all at concrete oracles. -/
theorem characteristic_io_retry_amended_witness :
    readCharacteristic retryReadOracle =
      { result := .ok [7], attempts := [1, 2, 3, 4], sleeps := [40, 80, 120],
        cleared := false } ∧
    readCharacteristic dropReadOracle =
      { result := .error droppedErr, attempts := List.range' 1 1,
        sleeps := (List.range' 1 0).map (fun j => 40 * j), cleared := true } ∧
    readCharacteristic dropAfterBusyOracle =
      { result := .error droppedErr, attempts := List.range' 1 2,
        sleeps := (List.range' 1 1).map (fun j => 40 * j), cleared := true } ∧
    readCharacteristic dropAfterBusyOracle =
      { result := .error droppedErr, attempts := [1, 2], sleeps := [40], cleared := true } ∧
    writeCharacteristic cexWriteOracle =
      { result := .error busyErr, attempts := [1],
        cleared := writeLooksDisconnected busyErr.message } :=
  ⟨characteristic_io_retry_amended.1 retryReadOracle [7] busyErr busyErr busyErr
      rfl (by decide) rfl (by decide) rfl (by decide) rfl,
   characteristic_io_retry_amended.2.1 dropReadOracle 1 droppedErr (by omega) (by omega)
      (fun j hj1 hj2 => absurd hj2 (by omega)) rfl (by decide),
   characteristic_io_retry_amended.2.1 dropAfterBusyOracle 2 droppedErr (by omega) (by omega)
      (by
        intro j hj1 hj2
        have hj : j = 1 := by omega
        subst hj
        exact ⟨busyErr, rfl, by decide⟩) rfl (by decide),
   by
    simpa [List.range'] using
      characteristic_io_retry_amended.2.1 dropAfterBusyOracle 2 droppedErr (by omega) (by omega)
        (by
          intro j hj1 hj2
          have hj : j = 1 := by omega
          subst hj
          exact ⟨busyErr, rfl, by decide⟩) rfl (by decide),
   characteristic_io_retry_amended.2.2.2.1 cexWriteOracle busyErr rfl⟩

/-- C9: on a connection-state transition every registered subscriber is
invoked with the new boolean state: the notification produces one
per-listener outcome for each listener, position by position the outcome
is exactly that listener applied to the flag (so a throwing listener
does not prevent any later listener from running, and the notification
itself never fails), whereas the catch-free reference traversal aborts
at the first throwing listener. -/
theorem notifyConnectionChange_isolates :
    (∀ (ls : List (Bool → Except BleErr Unit)) (v : Bool),
      (notifyConnectionChange ls v).length = ls.length) ∧
    (∀ (ls : List (Bool → Except BleErr Unit)) (v : Bool) (i : Nat),
      (notifyConnectionChange ls v)[i]? = ls[i]?.map (fun cb => cb v)) ∧
    (∀ (s : Session) (c : Bool),
      (setConnectedAndNotify s c).1.connected = c ∧
      (setConnectedAndNotify s c).2 = s.listeners.map (fun cb => cb c)) ∧
    notifyConnectionChange [throwingListener, okListener] true =
      [.error { message := "listener failed" }, .ok ()] ∧
    notifyUncaught [throwingListener, okListener] true =
      .error { message := "listener failed" } := by
  refine ⟨?_, ?_, ?_, rfl, rfl⟩
  · intro ls v; simp [notifyConnectionChange]
  · intro ls v i; simp [notifyConnectionChange]
  · intro s c; exact ⟨rfl, rfl⟩

/-- Witness for C9 at a two-listener list whose first listener throws. -/
theorem notifyConnectionChange_isolates_witness :
    (notifyConnectionChange [throwingListener, okListener] false).length =
      ([throwingListener, okListener] : List (Bool → Except BleErr Unit)).length ∧
    (notifyConnectionChange [throwingListener, okListener] false)[1]? =
      (([throwingListener, okListener] : List (Bool → Except BleErr Unit))[1]?).map
        (fun cb => cb false) :=
  ⟨notifyConnectionChange_isolates.1 [throwingListener, okListener] false,
   notifyConnectionChange_isolates.2.1 [throwingListener, okListener] false 1⟩

/-- C8 counterexample: the claim is false on two points. Sorting: a scan
window with one product advertisement of known strength -120 and one of
unknown strength returns the unknown-strength entry first (the sort key
defaults unknown to -100), so unknown strength does not sort last.
Merging: for one id observed first without a strength and then with
strength -1000, the kept entry has no strength at all even though a
strength was observed, because the stored-strength default -999 is not
below -1000 — the strongest observed strength is not kept. -/
theorem scanForDevices_cex :
    scanForDevices cexScanInput =
      [{ id := "b", name := "MACHHAR-2", rssi := none },
       { id := "a", name := "MACHHAR-1", rssi := some (-120) }] ∧
    ¬ unknownSortsLast (scanForDevices cexScanInput) ∧
    scanForDevices cexMergeInput = [{ id := "c", name := "MACHHAR-3", rssi := none }] ∧
    specStrongestRssi cexMergeInput "c" = some (-1000) := by
  have he : scanForDevices cexScanInput =
      [{ id := "b", name := "MACHHAR-2", rssi := none },
       { id := "a", name := "MACHHAR-1", rssi := some (-120) }] := by decide
  refine ⟨he, ?_, by decide, by decide⟩
  intro hlast
  rw [unknownSortsLast, he] at hlast
  have := (List.pairwise_cons.mp hlast).1
    { id := "a", name := "MACHHAR-1", rssi := some (-120) }
    (List.mem_singleton_self _) rfl
  simp at this

/-- C8 amended: for every scan window whose advertised strengths are in
the physical dBm range (≥ -127), duplicate ids are merged keeping the
strongest observed strength, nameless advertisements and names without
the product token are discarded (each reported entry corresponds to a
qualifying advertisement, and every qualifying advertisement's id is
reported exactly once), and the output is sorted by descending effective
strength where unknown strength ranks as -100 (thus not necessarily
last). -/
theorem scanForDevices_amended (advs : List Adv)
    (hr : ∀ a ∈ advs, ∀ r : Int, a.rssi = some r → -127 ≤ r) :
    (∀ e ∈ scanForDevices advs, nameMatches e.name = true) ∧
    ((scanForDevices advs).map ScanEntry.id).Nodup ∧
    (∀ e ∈ scanForDevices advs, ∃ a ∈ advs, qualId a = some e.id) ∧
    (∀ e ∈ scanForDevices advs, e.rssi = specStrongestRssi advs e.id) ∧
    (∀ a ∈ advs, ∀ id, qualId a = some id → ∃ e ∈ scanForDevices advs, e.id = id) ∧
    List.Pairwise scanLe (scanForDevices advs) := by
  have hinv : ScanInv advs (advs.foldl scanStep []) := by
    have h0 : ScanInv [] [] := ⟨List.nodup_nil, by simp, by simp⟩
    simpa using scanFold_inv advs [] [] hr h0
  obtain ⟨hnod, hpairs, hkeys⟩ := hinv
  have hsfd : scanForDevices advs =
      List.insertionSort scanLe ((advs.foldl scanStep []).map Prod.snd) := rfl
  have hperm : (scanForDevices advs).Perm ((advs.foldl scanStep []).map Prod.snd) := by
    rw [hsfd]
    exact List.perm_insertionSort scanLe _
  have hfromPair : ∀ e ∈ scanForDevices advs,
      ∃ p ∈ advs.foldl scanStep [], p.2 = e ∧ p.1 = e.id := by
    intro e he
    obtain ⟨p, hp, hpe⟩ := List.mem_map.mp (hperm.mem_iff.mp he)
    refine ⟨p, hp, hpe, ?_⟩
    rw [← hpe]
    exact (hpairs p hp).1.symm
  refine ⟨?_, ?_, ?_, ?_, ?_, ?_⟩
  · intro e he
    obtain ⟨p, hp, hpe, _⟩ := hfromPair e he
    have hn := (hpairs p hp).2.1
    rwa [hpe] at hn
  · have hmapeq : ((advs.foldl scanStep []).map Prod.snd).map ScanEntry.id =
        (advs.foldl scanStep []).map Prod.fst := by
      rw [List.map_map]
      apply List.map_congr_left
      intro p hp
      exact (hpairs p hp).1
    have hpm : ((scanForDevices advs).map ScanEntry.id).Perm
        ((advs.foldl scanStep []).map Prod.fst) := by
      rw [← hmapeq]
      exact hperm.map ScanEntry.id
    exact hpm.nodup_iff.mpr hnod
  · intro e he
    obtain ⟨p, hp, _, hpk⟩ := hfromPair e he
    obtain ⟨_, _, _, x, hx, hx2⟩ := hpairs p hp
    refine ⟨x, hx, ?_⟩
    rw [← hpk]
    exact hx2
  · intro e he
    obtain ⟨p, hp, hpe, hpk⟩ := hfromPair e he
    have hs := (hpairs p hp).2.2.1
    rwa [hpe, hpk] at hs
  · intro a ha id hid
    obtain ⟨p, hp, hpk⟩ := List.mem_map.mp (hkeys a ha id hid)
    refine ⟨p.2, hperm.mem_iff.mpr (List.mem_map.mpr ⟨p, hp, rfl⟩), ?_⟩
    rw [(hpairs p hp).1, hpk]
  · rw [hsfd]
    exact List.sorted_insertionSort scanLe _

/-- Witness for the amended C8: the -70 then -50 duplicate-id scenario
merges to a single entry reporting -50. -/
theorem scanForDevices_amended_witness :
    (∀ a ∈ cexScanPair, ∀ r : Int, a.rssi = some r → -127 ≤ r) ∧
    ((∀ e ∈ scanForDevices cexScanPair, nameMatches e.name = true) ∧
     ((scanForDevices cexScanPair).map ScanEntry.id).Nodup ∧
     (∀ e ∈ scanForDevices cexScanPair, ∃ a ∈ cexScanPair, qualId a = some e.id) ∧
     (∀ e ∈ scanForDevices cexScanPair, e.rssi = specStrongestRssi cexScanPair e.id) ∧
     (∀ a ∈ cexScanPair, ∀ id, qualId a = some id →
       ∃ e ∈ scanForDevices cexScanPair, e.id = id) ∧
     List.Pairwise scanLe (scanForDevices cexScanPair)) ∧
    scanForDevices cexScanPair = [{ id := "a", name := "MACHHAR-1", rssi := some (-50) }] ∧
    specStrongestRssi cexScanPair "a" = some (-50) :=
  ⟨by decide, scanForDevices_amended cexScanPair (by decide), by decide, by decide⟩

/-- Witness for C10 at a buffer advertising more entries than arrived. -/
theorem parseStatsPayload_invariant_witness :
    (parseStatsPayload (40 :: 9 :: List.range 17)).window =
      min ((40 :: 9 :: List.range 17).getD 1 0) (((40 :: 9 :: List.range 17).length - 2) / 8) ∧
    (parseStatsPayload (40 :: 9 :: List.range 17)).entries.length =
      (parseStatsPayload (40 :: 9 :: List.range 17)).window ∧
    (parseStatsPayload (40 :: 9 :: List.range 17)).total =
      (if (40 :: 9 :: List.range 17).length < 2 then 0 else (40 :: 9 :: List.range 17).headD 0) ∧
    (∀ e ∈ (parseStatsPayload (40 :: 9 :: List.range 17)).entries,
      e.time7.length = 7 ∧ e.intensity2b ≤ 3) ∧
    (∀ i, i < (parseStatsPayload (40 :: 9 :: List.range 17)).window →
      2 + i * 8 + 8 ≤ (40 :: 9 :: List.range 17).length) :=
  parseStatsPayload_invariant (40 :: 9 :: List.range 17)

end VeraShield
